import Mathlib

/-
  Formal model of the ulysses-mcp server core (src/secure-temp.ts and the
  main server module): parameter validation, the destructive-action rate
  limiter, the secure ephemeral file store, the callback correlator state
  machine, and the command dispatch pipeline.

  Conventions of the shallow embedding:
  * JavaScript strings are Lean `String`; `Map<string, T>` is an
    association list `List (String × T)` with JS `Map.get`/`Map.set`
    semantics (first matching key; `set` replaces in place or appends).
  * `Date.now()` timestamps are `Nat` milliseconds.
  * Thrown exceptions are `Except` errors.
  * The filesystem object at a single callback path is modelled by
    `Option FsEntry`; file contents are kept at the parsed-JSON level:
    `Option Artifact`, where `none` stands for text that `JSON.parse`
    rejects.
-/

namespace UlyssesMCP

/-! ## String helpers (JS primitives used by the source) -/

/-- Model of JS `String.prototype.startsWith`, computed over character
lists: `charsBegin pre s` is true when `pre` is an initial run of `s`. -/
def charsBegin : List Char → List Char → Bool
  | [], _ => true
  | _ :: _, [] => false
  | a :: as, b :: bs => a = b && charsBegin as bs

/-- JS `s.startsWith(pre)` on Lean strings. -/
def jsStartsWith (s pre : String) : Bool :=
  charsBegin pre.toList s.toList

/-- Model of JS `String.prototype.trim` (drop leading and trailing
whitespace). -/
def jsTrim (s : String) : String :=
  String.mk (((s.toList.dropWhile Char.isWhitespace).reverse.dropWhile
    Char.isWhitespace).reverse)

/-! ## JS values and `validateRequired` -/

/-- The JS value shapes relevant to `validateRequired`: the function
only distinguishes `undefined`, `null`, and everything else via
`String(value)` coercion, so one representative object case suffices. -/
inductive JSValue
  | undef
  | nullv
  | str (s : String)
  | num (n : Int)
  | boolean (b : Bool)
  | obj
  deriving DecidableEq

/-- JS `String(value)` coercion on the modelled value shapes. -/
def jsString : JSValue → String
  | .undef => "undefined"
  | .nullv => "null"
  | .str s => s
  | .num n => toString n
  | .boolean b => if b then "true" else "false"
  | .obj => "[object Object]"

/-- Translation of `validateRequired(value, fieldName)`:
rejects `undefined`/`null`, then coerces with `String(value)`, trims,
and rejects the empty trimmed string; otherwise returns the trimmed
string. -/
def validateRequired (value : JSValue) (fieldName : String) :
    Except String String :=
  match value with
  | .undef => .error (fieldName ++ " is required")
  | .nullv => .error (fieldName ++ " is required")
  | v =>
    let strValue := jsTrim (jsString v)
    if strValue = "" then .error (fieldName ++ " cannot be empty")
    else .ok strValue

/-- True when an `Except` result is an error. -/
def isErr : Except String String → Bool
  | .error _ => true
  | .ok _ => false

/-! ## Action registry (the three `Set` constants of the source) -/

/-- Translation of `CALLBACK_ACTIONS`. -/
def CALLBACK_ACTIONS : List String :=
  ["authorize", "read-sheet", "get-item", "get-root-items", "get-version"]

/-- Translation of `ALLOWED_ACTIONS`. -/
def ALLOWED_ACTIONS : List String :=
  ["new-sheet", "new-group", "insert", "attach-note", "attach-keywords",
   "attach-image", "open", "open-all", "open-recent", "open-favorites",
   "get-version", "authorize", "read-sheet", "get-item", "get-root-items",
   "move", "copy", "trash", "set-group-title", "set-sheet-title",
   "remove-keywords", "update-note", "remove-note"]

/-- Translation of `DESTRUCTIVE_ACTIONS`. -/
def DESTRUCTIVE_ACTIONS : List String :=
  ["trash", "move", "set-group-title", "set-sheet-title",
   "remove-keywords", "remove-note", "update-note"]

/-! ## Rate limiter -/

/-- Translation of `RATE_LIMIT_WINDOW_MS` (60000 ms). -/
def RATE_LIMIT_WINDOW_MS : Nat := 60000

/-- Translation of `MAX_DESTRUCTIVE_OPS_PER_MINUTE` (10). -/
def MAX_DESTRUCTIVE_OPS_PER_MINUTE : Nat := 10

/-- The `rateLimitState` map: action name to `{count, resetTime}`. -/
abbrev RLMap := List (String × (Nat × Nat))

/-- JS `Map.get`: first entry with a matching key. -/
def rlGet : RLMap → String → Option (Nat × Nat)
  | [], _ => none
  | (k, v) :: rest, a => if k = a then some v else rlGet rest a

/-- JS `Map.set`: replace the first entry with a matching key, else
append. -/
def rlSet : RLMap → String → (Nat × Nat) → RLMap
  | [], a, v => [(a, v)]
  | (k, w) :: rest, a, v =>
    if k = a then (a, v) :: rest else (k, w) :: rlSet rest a v

/-- Translation of `checkRateLimit(action)` as a pure function of the
action, the current time and the `rateLimitState` map. An `.error` is
the thrown `McpError(InvalidRequest, ...)`; `.ok` carries the map after
the call (`state.count++` mutates the stored entry in place, which on
the association list is `rlSet`). -/
def checkRateLimit (action : String) (now : Nat) (m : RLMap) :
    Except String RLMap :=
  if DESTRUCTIVE_ACTIONS.contains action = false then
    .ok m
  else
    match rlGet m action with
    | none => .ok (rlSet m action (1, now + RATE_LIMIT_WINDOW_MS))
    | some (c, r) =>
      if now > r then
        .ok (rlSet m action (1, now + RATE_LIMIT_WINDOW_MS))
      else if c ≥ MAX_DESTRUCTIVE_OPS_PER_MINUTE then
        .error ("Rate limit exceeded for " ++ action ++
          ". Please wait before trying again.")
      else
        .ok (rlSet m action (c + 1, r))

/-- The `rateLimitState` map after a call: a thrown error leaves the
map untouched. -/
def rlAfter (action : String) (now : Nat) (m : RLMap) : RLMap :=
  match checkRateLimit action now m with
  | .ok m2 => m2
  | .error _ => m

/-- A sequence of calls to `checkRateLimit` for one action, failing on
the first thrown error. -/
def rlCalls (action : String) (ts : List Nat) (m : RLMap) :
    Except String RLMap :=
  ts.foldl
    (fun acc t =>
      match acc with
      | .ok m2 => checkRateLimit action t m2
      | .error e => .error e)
    (.ok m)

/-- The `rateLimitState` map reached from the empty map by a sequence
of `(action, time)` calls, where a rejected call leaves the map
unchanged (the throw propagates to the caller but the limiter state is
untouched). -/
def rlRunSeq (calls : List (String × Nat)) : RLMap :=
  calls.foldl (fun m p => rlAfter p.1 p.2 m) []

/-! ## Secure ephemeral store (`SecureTempFileManager`) -/

/-- A callback artifact at the parsed-JSON level: the fields the server
reads (`response.isError`, `response.data`). The on-disk JSON also
carries a `callbackId` field, which the server never inspects (matching
is by file name alone). -/
structure Artifact where
  isError : Bool
  data : List (String × String)
  deriving DecidableEq

/-- A filesystem node at one path. File text is kept at the
parsed-or-not level: `regular none` is a regular file whose text
`JSON.parse` rejects; `symlinkTo none` is a dangling symbolic link;
`symlinkTo (some c)` is a symbolic link whose target is a regular file
with content `c`. -/
inductive FsEntry
  | regular (content : Option Artifact)
  | symlinkTo (target : Option (Option Artifact))
  deriving DecidableEq

/-- `fs.existsSync` at a path holding `e`: follows symbolic links, so a
dangling link reports `false`. -/
def existsSyncB : Option FsEntry → Bool
  | none => false
  | some (.regular _) => true
  | some (.symlinkTo t) => t.isSome

/-- `fs.readFileSync` at a path holding `e`: follows symbolic links;
reading a missing file or a dangling link throws (`.error`). -/
def readFileSyncM : Option FsEntry → Except Unit (Option Artifact)
  | none => .error ()
  | some (.regular c) => .ok c
  | some (.symlinkTo none) => .error ()
  | some (.symlinkTo (some c)) => .ok c

/-- The secure temp directory, `join(homedir(), 'Library/Application
Support/ulysses-mcp/tmp')`. -/
def tempDirOf (home : String) : String :=
  home ++ "/Library/Application Support/ulysses-mcp/tmp"

/-- Translation of `SecureTempFileManager.writeSecure`: the guard is
`filePath.startsWith(this.tempDir)`; on success the write proceeds
against `filePath`, returned as the effect `(path, data)` the operation
performs. -/
def writeSecure (tempDir filePath data : String) :
    Except String (String × String) :=
  if jsStartsWith filePath tempDir = false then
    .error "Invalid file path: must be within secure temp directory"
  else
    .ok (filePath, data)

/-- Translation of `SecureTempFileManager.readSecure` over the node
`e` found at `filePath`: the same textual-prefix guard, then
`existsSync`, then `lstatSync` (which does not follow links) with an
outright rejection of symbolic links, then the read. The
permission-bits check only warns and is not modelled. -/
def readSecure (tempDir filePath : String) (e : Option FsEntry) :
    Except String (Option Artifact) :=
  if jsStartsWith filePath tempDir = false then
    .error "Invalid file path: must be within secure temp directory"
  else if existsSyncB e = false then
    .error "File does not exist"
  else
    match e with
    | some (.symlinkTo _) => .error "File is a symlink - potential security issue"
    | some (.regular c) => .ok c
    | none => .error "File does not exist"

/-- Translation of `SecureTempFileManager.deleteSecure` over the node
`e` at `filePath`: the same textual-prefix guard; a missing file (per
`existsSync`, which follows links) returns silently; a symbolic link is
never deleted, only logged; otherwise the file is unlinked. `.ok (some
path)` records an actual unlink of `path`; `.ok none` records that
nothing was removed. -/
def deleteSecure (tempDir filePath : String) (e : Option FsEntry) :
    Except String (Option String) :=
  if jsStartsWith filePath tempDir = false then
    .error "Invalid file path: must be within secure temp directory"
  else if existsSyncB e = false then
    .ok none
  else
    match e with
    | some (.symlinkTo _) => .ok none
    | _ => .ok (some filePath)

/-! ## Path resolution (specification side, for the containment claim)

The store's guard is a textual prefix test. The specification demands
containment of the *resolved* path, so we also define resolution of
`..` and `.` segments, following the spec's words, to compare the two.
-/

/-- Splits a path string at `/` separators into raw segments. -/
def splitSegs : List Char → List Char → List String
  | [], cur => [String.mk cur.reverse]
  | c :: rest, cur =>
    if c = '/' then String.mk cur.reverse :: splitSegs rest []
    else splitSegs rest (c :: cur)

/-- Modelled from the spec (`pathFor(id)` "always validated to be a
descendant of the store root", "any path that resolves outside the root
must fail closed"): lexical resolution of a path into its segment list,
eliminating empty, `.` and `..` segments in the usual way. -/
def resolvePath (p : String) : List String :=
  (splitSegs p.toList []).foldl
    (fun acc seg =>
      if seg = "" then acc
      else if seg = "." then acc
      else if seg = ".." then acc.dropLast
      else acc ++ [seg])
    []

/-- Modelled from the spec: a path is a descendant of `root` when the
resolved segments of `root` are an initial run of its own resolved
segments. -/
def isDescendantOf (p root : String) : Bool :=
  List.isPrefixOf (resolvePath root) (resolvePath p)

/-! ## Callback correlator (`waitForCallback`)

The per-correlation-id state machine: the registry entry in
`pendingCallbacks`, the `setTimeout` and `setInterval` handles, the
filesystem node at `/tmp/ulysses-mcp-callback-<id>.json`, and the list
of settlements (`resolve`/`reject` calls) delivered to the promise.
Handlers for distinct correlation ids touch only their own path and
registry entry, so one id's lifecycle is modelled in isolation. Node's
event loop is single-threaded: an event is either the timeout firing
(only possible while the timer is scheduled and not cleared), a poll
tick (only while the interval is not cleared), or an external process
writing/replacing the node at the artifact path. -/

/-- A settlement of the caller's promise. -/
inductive Outcome
  | resolved (data : List (String × String))
  | rejectedExternal (msg : String)
  | rejectedInternal
  | rejectedTimeout
  deriving DecidableEq

/-- The state of one pending correlation id. -/
structure CorrState where
  pending : Bool
  timerActive : Bool
  pollActive : Bool
  file : Option FsEntry
  settled : List Outcome
  deriving DecidableEq

/-- State immediately after `waitForCallback` registers: timer and poll
scheduled, entry in `pendingCallbacks`, the artifact path holding `e`
(normally nothing yet). -/
def initCorr (e : Option FsEntry) : CorrState :=
  { pending := true, timerActive := true, pollActive := true,
    file := e, settled := [] }

/-- Translation of the `setTimeout` handler body: look the id up in
`pendingCallbacks`; when present, clear the poll interval and delete
the entry; unlink the artifact path if `existsSync` reports it; then
reject with the callback-timeout error (the rejection is outside the
registry guard in the source, hence unconditional here too). -/
def timeoutFire (s : CorrState) : CorrState :=
  let s1 : CorrState := { s with timerActive := false }
  let s2 : CorrState :=
    if s1.pending then { s1 with pollActive := false, pending := false }
    else s1
  let s3 : CorrState :=
    if existsSyncB s2.file then { s2 with file := none } else s2
  { s3 with settled := s3.settled ++ [Outcome.rejectedTimeout] }

/-- JS `response.data.errorMessage || 'Ulysses returned an error'`:
a missing key and the empty string both fall back. -/
def errMsgOf (data : List (String × String)) : String :=
  match data.lookup "errorMessage" with
  | none => "Ulysses returned an error"
  | some m => if m = "" then "Ulysses returned an error" else m

/-- Translation of the `setInterval` poll handler body. The whole body
is inside a `try`: when `existsSync` is false the tick is a no-op;
otherwise the file is read with `fs.readFileSync` (which follows
symbolic links) and `JSON.parse`d; on success both handles are cleared,
the entry removed, the artifact unlinked, and the promise settled by
`response.isError`; when the read or the parse throws, the `catch`
clears both handles, removes the entry and rejects with an internal
error — without deleting the artifact. -/
def pollTick (s : CorrState) : CorrState :=
  if existsSyncB s.file = false then s
  else
    match readFileSyncM s.file with
    | .ok (some a) =>
      { s with timerActive := false, pollActive := false, pending := false,
               file := none,
               settled := s.settled ++
                 [if a.isError then Outcome.rejectedExternal (errMsgOf a.data)
                  else Outcome.resolved a.data] }
    | .ok none =>
      { s with timerActive := false, pollActive := false, pending := false,
               settled := s.settled ++ [Outcome.rejectedInternal] }
    | .error _ =>
      { s with timerActive := false, pollActive := false, pending := false,
               settled := s.settled ++ [Outcome.rejectedInternal] }

/-- Events that can involve one correlation id: the timer firing, a
poll tick, or an external process placing (or removing) a node at the
artifact path. -/
inductive Ev
  | timer
  | poll
  | place (e : Option FsEntry)

/-- One event-loop step. A cleared (or already-fired) timer never
fires again, and a cleared interval never ticks again — this is the
semantics of `clearTimeout`/`clearInterval`. -/
def stepCorr (s : CorrState) : Ev → CorrState
  | .timer => if s.timerActive then timeoutFire s else s
  | .poll => if s.pollActive then pollTick s else s
  | .place e => { s with file := e }

/-- Runs a sequence of events. -/
def runCorr (s : CorrState) (evs : List Ev) : CorrState :=
  evs.foldl stepCorr s

/-- The settlement invariant: either nothing has settled and the entry,
timer and poll are all live, or exactly one settlement happened and all
three are gone. -/
def corrInv (s : CorrState) : Prop :=
  (s.settled = [] ∧ s.pending = true ∧ s.timerActive = true ∧
    s.pollActive = true) ∨
  (s.settled.length = 1 ∧ s.pending = false ∧ s.timerActive = false ∧
    s.pollActive = false)

/-! ## Command execution (`executeUlyssesCommand`) -/

/-- Hexadecimal digit (uppercase), for percent-encoding. -/
def hexDigit (n : Nat) : Char :=
  if n < 10 then Char.ofNat (48 + n) else Char.ofNat (55 + n)

/-- UTF-8 bytes of a code point. -/
def utf8Bytes (n : Nat) : List Nat :=
  if n < 128 then [n]
  else if n < 2048 then [192 + n / 64, 128 + n % 64]
  else if n < 65536 then
    [224 + n / 4096, 128 + (n / 64) % 64, 128 + n % 64]
  else
    [240 + n / 262144, 128 + (n / 4096) % 64, 128 + (n / 64) % 64,
     128 + n % 64]

/-- Code points left unescaped by `encodeURIComponent`:
`A-Z a-z 0-9 - _ . ! ~ * ' ( )`. -/
def isUnreservedCode (n : Nat) : Bool :=
  (48 ≤ n && n ≤ 57) || (65 ≤ n && n ≤ 90) || (97 ≤ n && n ≤ 122) ||
  (n = 45 || n = 95 || n = 46 || n = 33 || n = 126 || n = 42 ||
   n = 39 || n = 40 || n = 41)

/-- Translation of `encodeParam` = `encodeURIComponent`: unreserved
characters pass through, every other character is replaced by the
percent-encoding of its UTF-8 bytes. -/
def encodeParam (s : String) : String :=
  String.mk <| s.toList.foldr
    (fun c acc =>
      if isUnreservedCode c.toNat then c :: acc
      else (utf8Bytes c.toNat).foldr
        (fun b acc2 => '%' :: hexDigit (b / 16) :: hexDigit (b % 16) :: acc2)
        acc)
    []

/-- Joins `key=encodeParam(value)` pairs with `&`
(`Object.entries(params).map(...).join("&")`). -/
def paramString (params : List (String × String)) : String :=
  String.intercalate "&"
    (params.map (fun p => p.1 ++ "=" ++ encodeParam p.2))

/-- URL construction of `executeUlyssesCommand` for a given action,
parameter list, callback id and callback-neededness. -/
def buildUrl (action : String) (params : List (String × String))
    (needsCallback : Bool) (callbackId : String) : String :=
  let ps := paramString params
  if needsCallback then
    let successUrl := encodeParam
      ("ulysses-mcp-callback://x-success?callbackId=" ++ callbackId)
    let errorUrl := encodeParam
      ("ulysses-mcp-callback://x-error?callbackId=" ++ callbackId)
    "ulysses://x-callback-url/" ++ action ++ "?x-success=" ++ successUrl ++
      "&x-error=" ++ errorUrl ++ (if ps = "" then "" else "&" ++ ps)
  else
    "ulysses://x-callback-url/" ++ action ++ (if ps = "" then "" else "?" ++ ps)

/-- The errors `executeUlyssesCommand` can throw synchronously,
mirroring the `McpError` codes in the source. -/
inductive McpErr
  | invalidParams (msg : String)
  | invalidRequest (msg : String)
  | internalError (msg : String)
  deriving DecidableEq

/-- The observable result of the synchronous phase of
`executeUlyssesCommand` (everything up to and including the
`execFileAsync('open', [url])` dispatch): the rate-limit map after the
call, the URL if one was built, the registered correlation state if
`waitForCallback` was entered (for callback actions registration
happens *before* dispatch), and the thrown error or dispatch success. -/
structure SyncResult where
  rl : RLMap
  url : Option String
  registered : Option CorrState
  outcome : Except McpErr Unit

/-- Translation of the synchronous phase of
`executeUlyssesCommand(action, params)`: whitelist check, rate-limit
check, callback registration and URL construction, then dispatch.
`now` is `Date.now()`, `rand` the random suffix of the correlation id,
`dispatchOk` whether the OS-level `open` call succeeds. The `catch`
branch wraps a dispatch failure as `McpError(InternalError, ...)` and
performs no cleanup of the registered correlation state. -/
def executeSync (action : String) (params : List (String × String))
    (now : Nat) (rand : String) (m : RLMap) (dispatchOk : Bool) :
    SyncResult :=
  if ALLOWED_ACTIONS.contains action = false then
    { rl := m, url := none, registered := none,
      outcome := .error (.invalidParams ("Invalid action: " ++ action)) }
  else
    match checkRateLimit action now m with
    | .error e =>
      { rl := m, url := none, registered := none,
        outcome := .error (.invalidRequest e) }
    | .ok m2 =>
      let needsCallback := CALLBACK_ACTIONS.contains action
      let callbackId := action ++ "-" ++ toString now ++ "-" ++ rand
      let url := buildUrl action params needsCallback callbackId
      let reg := if needsCallback then some (initCorr none) else none
      if dispatchOk then
        { rl := m2, url := some url, registered := reg, outcome := .ok () }
      else
        { rl := m2, url := some url, registered := reg,
          outcome := .error (.internalError
            "MCP error -32603: dispatch of the open call failed") }

/-- A successful dispatch for a callback action followed by the helper
writing a well-formed artifact and the next poll tick observing it:
the composition behind the round-trip property. Returns the final
settlements and the final node at the artifact path, or `none` when no
correlation was registered. -/
def roundTrip (action : String) (params : List (String × String))
    (now : Nat) (rand : String) (m : RLMap)
    (d : List (String × String)) :
    Option (List Outcome × Option FsEntry) :=
  let r := executeSync action params now rand m true
  match r.registered, r.outcome with
  | some c, .ok _ =>
    let c2 := runCorr c
      [Ev.place (some (.regular (some ⟨false, d⟩))), Ev.poll]
    some (c2.settled, c2.file)
  | _, _ => none

/-! ## Rate limiter lemmas -/

theorem rlGet_rlSet_self (m : RLMap) (a : String) (v : Nat × Nat) :
    rlGet (rlSet m a v) a = some v := by
  induction m with
  | nil => simp [rlSet, rlGet]
  | cons p rest ih =>
    obtain ⟨k, w⟩ := p
    by_cases h : k = a
    · simp [rlSet, rlGet, h]
    · simp [rlSet, rlGet, h, ih]

theorem rlSet_rlSet (m : RLMap) (a : String) (v w : Nat × Nat) :
    rlSet (rlSet m a v) a w = rlSet m a w := by
  induction m with
  | nil => simp [rlSet]
  | cons p rest ih =>
    obtain ⟨k, u⟩ := p
    by_cases h : k = a
    · simp [rlSet, h]
    · simp [rlSet, h, ih]

theorem rlSet_self (m : RLMap) (a : String) (v : Nat × Nat)
    (h : rlGet m a = some v) : rlSet m a v = m := by
  induction m with
  | nil => simp [rlGet] at h
  | cons p rest ih =>
    obtain ⟨k, w⟩ := p
    by_cases hk : k = a
    · simp [rlGet, hk] at h
      simp [rlSet, hk, h]
    · simp [rlGet, hk] at h
      simp [rlSet, hk, ih h]

theorem mem_rlSet (m : RLMap) (a : String) (v : Nat × Nat)
    (p : String × Nat × Nat) (h : p ∈ rlSet m a v) :
    p = (a, v) ∨ p ∈ m := by
  induction m with
  | nil => simpa [rlSet] using h
  | cons q rest ih =>
    obtain ⟨k, w⟩ := q
    by_cases hk : k = a
    · simp [rlSet, hk] at h
      rcases h with h | h
      · exact Or.inl h
      · exact Or.inr (List.mem_cons_of_mem _ h)
    · simp [rlSet, hk] at h
      rcases h with h | h
      · exact Or.inr (by simp [h])
      · rcases ih h with h2 | h2
        · exact Or.inl h2
        · exact Or.inr (List.mem_cons_of_mem _ h2)

theorem rl_call_inWindow (a : String) (m : RLMap) (c r t : Nat)
    (hd : a ∈ DESTRUCTIVE_ACTIONS)
    (hg : rlGet m a = some (c, r)) (ht : t ≤ r)
    (hc : c < MAX_DESTRUCTIVE_OPS_PER_MINUTE) :
    checkRateLimit a t m = .ok (rlSet m a (c + 1, r)) := by
  have h1 : ¬ (t > r) := by omega
  have h2 : ¬ (c ≥ MAX_DESTRUCTIVE_OPS_PER_MINUTE) := by omega
  simp [checkRateLimit, hd, hg, h1, h2]

theorem rlCalls_cons_ok (a : String) (t : Nat) (ts : List Nat)
    (m m2 : RLMap) (h : checkRateLimit a t m = .ok m2) :
    rlCalls a (t :: ts) m = rlCalls a ts m2 := by
  simp [rlCalls, h]

theorem rlCalls_inWindow (a : String)
    (hd : a ∈ DESTRUCTIVE_ACTIONS) :
    ∀ (ts : List Nat) (m : RLMap) (c r : Nat),
      rlGet m a = some (c, r) → (∀ t ∈ ts, t ≤ r) →
      c + ts.length ≤ MAX_DESTRUCTIVE_OPS_PER_MINUTE →
      rlCalls a ts m = .ok (rlSet m a (c + ts.length, r)) := by
  intro ts
  induction ts with
  | nil =>
    intro m c r hg _ _
    simp [rlCalls, rlSet_self m a (c, r) hg]
  | cons t ts ih =>
    intro m c r hg hin hle
    have hc : c < MAX_DESTRUCTIVE_OPS_PER_MINUTE := by
      simp at hle; omega
    have hstep := rl_call_inWindow a m c r t hd hg (hin t (by simp)) hc
    rw [rlCalls_cons_ok a t ts m _ hstep]
    have hg2 : rlGet (rlSet m a (c + 1, r)) a = some (c + 1, r) :=
      rlGet_rlSet_self m a (c + 1, r)
    have hrec := ih (rlSet m a (c + 1, r)) (c + 1) r hg2
      (fun x hx => hin x (by simp [hx])) (by simp at hle ⊢; omega)
    rw [hrec, rlSet_rlSet]
    have he : c + 1 + ts.length = c + (t :: ts).length := by
      simp; omega
    rw [he]

theorem rlAfter_bound (a : String) (t : Nat) (m : RLMap)
    (hb : ∀ p ∈ m, p.2.1 ≤ MAX_DESTRUCTIVE_OPS_PER_MINUTE) :
    ∀ p ∈ rlAfter a t m, p.2.1 ≤ MAX_DESTRUCTIVE_OPS_PER_MINUTE := by
  intro p hp
  by_cases hd : a ∈ DESTRUCTIVE_ACTIONS
  · rcases hg : rlGet m a with _ | ⟨c, r⟩
    · have hck : checkRateLimit a t m =
          .ok (rlSet m a (1, t + RATE_LIMIT_WINDOW_MS)) := by
        simp [checkRateLimit, hd, hg]
      rw [rlAfter, hck] at hp
      rcases mem_rlSet m a (1, t + RATE_LIMIT_WINDOW_MS) p hp with h | h
      · simp [h, MAX_DESTRUCTIVE_OPS_PER_MINUTE]
      · exact hb p h
    · by_cases htr : t > r
      · have hck : checkRateLimit a t m =
            .ok (rlSet m a (1, t + RATE_LIMIT_WINDOW_MS)) := by
          simp [checkRateLimit, hd, hg, htr]
        rw [rlAfter, hck] at hp
        rcases mem_rlSet m a (1, t + RATE_LIMIT_WINDOW_MS) p hp with h | h
        · simp [h, MAX_DESTRUCTIVE_OPS_PER_MINUTE]
        · exact hb p h
      · by_cases hcm : c ≥ MAX_DESTRUCTIVE_OPS_PER_MINUTE
        · have hck : checkRateLimit a t m =
              .error ("Rate limit exceeded for " ++ a ++
                ". Please wait before trying again.") := by
            simp [checkRateLimit, hd, hg, htr, hcm]
          rw [rlAfter, hck] at hp
          exact hb p hp
        · have hck : checkRateLimit a t m = .ok (rlSet m a (c + 1, r)) := by
            simp [checkRateLimit, hd, hg, htr, hcm]
          rw [rlAfter, hck] at hp
          rcases mem_rlSet m a (c + 1, r) p hp with h | h
          · simp [h]
            omega
          · exact hb p h
  · have hck : checkRateLimit a t m = .ok m := by
      simp [checkRateLimit, hd]
    rw [rlAfter, hck] at hp
    exact hb p hp

theorem rlRunSeq_bound_aux (calls : List (String × Nat)) :
    ∀ m : RLMap, (∀ p ∈ m, p.2.1 ≤ MAX_DESTRUCTIVE_OPS_PER_MINUTE) →
      ∀ p ∈ calls.foldl (fun mm q => rlAfter q.1 q.2 mm) m,
        p.2.1 ≤ MAX_DESTRUCTIVE_OPS_PER_MINUTE := by
  induction calls with
  | nil => intro m hb; simpa using hb
  | cons q rest ih =>
    intro m hb
    simpa using ih (rlAfter q.1 q.2 m) (rlAfter_bound q.1 q.2 m hb)

/-- C6: for a destructive action, the first call in a fresh window
succeeds and installs the entry `(count = 1, resetTime = now + 60000)`;
ten in-window calls exhaust the ceiling, so the 11th call inside the
same window throws the rate-limit error and leaves the limiter state
untouched; a non-destructive action always passes with no state
mutation. -/
theorem c6_rate_limit_window (a : String) (m : RLMap) (t0 t11 : Nat)
    (rest : List Nat) (b : String) (mb : RLMap) (tb : Nat)
    (hd : a ∈ DESTRUCTIVE_ACTIONS)
    (hm : rlGet m a = none)
    (hlen : rest.length = 9)
    (hin : ∀ t ∈ rest, t ≤ t0 + RATE_LIMIT_WINDOW_MS)
    (h11 : t11 ≤ t0 + RATE_LIMIT_WINDOW_MS)
    (hb : b ∉ DESTRUCTIVE_ACTIONS) :
    checkRateLimit a t0 m = .ok (rlSet m a (1, t0 + RATE_LIMIT_WINDOW_MS)) ∧
    rlCalls a (t0 :: rest) m =
      .ok (rlSet m a (10, t0 + RATE_LIMIT_WINDOW_MS)) ∧
    checkRateLimit a t11 (rlSet m a (10, t0 + RATE_LIMIT_WINDOW_MS)) =
      .error ("Rate limit exceeded for " ++ a ++
        ". Please wait before trying again.") ∧
    rlAfter a t11 (rlSet m a (10, t0 + RATE_LIMIT_WINDOW_MS)) =
      rlSet m a (10, t0 + RATE_LIMIT_WINDOW_MS) ∧
    checkRateLimit b tb mb = .ok mb := by
  have hfresh : checkRateLimit a t0 m =
      .ok (rlSet m a (1, t0 + RATE_LIMIT_WINDOW_MS)) := by
    simp [checkRateLimit, hd, hm]
  have hten : rlCalls a (t0 :: rest) m =
      .ok (rlSet m a (10, t0 + RATE_LIMIT_WINDOW_MS)) := by
    rw [rlCalls_cons_ok a t0 rest m _ hfresh]
    have hrec := rlCalls_inWindow a hd rest
      (rlSet m a (1, t0 + RATE_LIMIT_WINDOW_MS)) 1 (t0 + RATE_LIMIT_WINDOW_MS)
      (rlGet_rlSet_self m a _) hin
      (by simp [hlen, MAX_DESTRUCTIVE_OPS_PER_MINUTE])
    rw [hrec, rlSet_rlSet, hlen]
  have h11e : checkRateLimit a t11 (rlSet m a (10, t0 + RATE_LIMIT_WINDOW_MS)) =
      .error ("Rate limit exceeded for " ++ a ++
        ". Please wait before trying again.") := by
    have hg := rlGet_rlSet_self m a (10, t0 + RATE_LIMIT_WINDOW_MS)
    have h1 : ¬ (t11 > t0 + RATE_LIMIT_WINDOW_MS) := by omega
    have h2 : (10 : Nat) ≥ MAX_DESTRUCTIVE_OPS_PER_MINUTE := by
      simp [MAX_DESTRUCTIVE_OPS_PER_MINUTE]
    simp [checkRateLimit, hd, hg, h1, h2]
  refine ⟨hfresh, hten, h11e, ?_, ?_⟩
  · simp [rlAfter, h11e]
  · simp [checkRateLimit, hb]

theorem c6_rate_limit_window_witness :
    checkRateLimit "trash" 0 [] =
      .ok (rlSet [] "trash" (1, 0 + RATE_LIMIT_WINDOW_MS)) ∧
    rlCalls "trash" (0 :: List.replicate 9 50) [] =
      .ok (rlSet [] "trash" (10, 0 + RATE_LIMIT_WINDOW_MS)) ∧
    checkRateLimit "trash" 60000 (rlSet [] "trash" (10, 0 + RATE_LIMIT_WINDOW_MS)) =
      .error ("Rate limit exceeded for " ++ "trash" ++
        ". Please wait before trying again.") ∧
    rlAfter "trash" 60000 (rlSet [] "trash" (10, 0 + RATE_LIMIT_WINDOW_MS)) =
      rlSet [] "trash" (10, 0 + RATE_LIMIT_WINDOW_MS) ∧
    checkRateLimit "open" 3 [("trash", (4, 70))] = .ok [("trash", (4, 70))] :=
  c6_rate_limit_window "trash" [] 0 60000 (List.replicate 9 50)
    "open" [("trash", (4, 70))] 3 (by decide) rfl (by decide) (by decide)
    (by decide) (by decide)

/-- C7 counterexample: with the entry `(count = 1, resetTime = 100)`
and a call at exactly `now = windowResetAt = 100`, the code increments
the entry to `(2, 100)` instead of replacing it with the fresh window
`(1, now + 60000)` the claim demands at `now >= windowResetAt`. -/
theorem c7_boundary_increment_cex :
    checkRateLimit "trash" 100 [("trash", (1, 100))] =
      .ok [("trash", (2, 100))] ∧
    rlSet [("trash", (1, 100))] "trash" (1, 100 + RATE_LIMIT_WINDOW_MS) ≠
      [("trash", (2, 100))] :=
  ⟨rfl, by decide⟩

/-- C7 amended: in every limiter state reachable from the empty map,
no entry's count exceeds the ceiling; an entry is replaced by a fresh
window exactly when `now` is strictly greater than `windowResetAt`; at
`now = windowResetAt` the entry is still inside the window and is
incremented (when below the ceiling), not replaced. -/
theorem c7_count_invariant_strict_reset :
    (∀ (calls : List (String × Nat)) (p : String × Nat × Nat),
      p ∈ rlRunSeq calls → p.2.1 ≤ MAX_DESTRUCTIVE_OPS_PER_MINUTE) ∧
    (∀ (a : String) (m : RLMap) (c r t : Nat),
      a ∈ DESTRUCTIVE_ACTIONS → rlGet m a = some (c, r) →
      r < t →
      checkRateLimit a t m = .ok (rlSet m a (1, t + RATE_LIMIT_WINDOW_MS))) ∧
    (∀ (a : String) (m : RLMap) (c r : Nat),
      a ∈ DESTRUCTIVE_ACTIONS → rlGet m a = some (c, r) →
      c < MAX_DESTRUCTIVE_OPS_PER_MINUTE →
      checkRateLimit a r m = .ok (rlSet m a (c + 1, r))) := by
  refine ⟨?_, ?_, ?_⟩
  · intro calls p hp
    exact rlRunSeq_bound_aux calls [] (by simp) p hp
  · intro a m c r t hd hg hrt
    have hgt : t > r := hrt
    simp [checkRateLimit, hd, hg, hgt]
  · intro a m c r hd hg hc
    exact rl_call_inWindow a m c r r hd hg (le_refl r) hc

theorem c7_count_invariant_strict_reset_witness :
    checkRateLimit "trash" 100 [("trash", (1, 100))] =
      .ok (rlSet [("trash", (1, 100))] "trash" (1 + 1, 100)) :=
  c7_count_invariant_strict_reset.2.2 "trash" [("trash", (1, 100))] 1 100
    (by decide) (by decide) (by decide)

/-! ## Correlator lemmas -/

theorem corrInv_step (s : CorrState) (ev : Ev) (h : corrInv s) :
    corrInv (stepCorr s ev) := by
  rcases h with ⟨h1, h2, h3, h4⟩ | ⟨h1, h2, h3, h4⟩
  · cases ev with
    | timer =>
      right
      simp [stepCorr, h3, timeoutFire, h2, h1]
      split <;> simp
    | poll =>
      rcases hf : s.file with _ | e
      · left
        simp [stepCorr, h4, pollTick, hf, existsSyncB, h1, h2, h3]
      · cases e with
        | regular c =>
          right
          cases c <;>
            simp [stepCorr, h4, pollTick, hf, existsSyncB, readFileSyncM, h1]
        | symlinkTo t =>
          cases t with
          | none =>
            left
            simp [stepCorr, h4, pollTick, hf, existsSyncB, h1, h2, h3]
          | some c =>
            right
            cases c <;>
              simp [stepCorr, h4, pollTick, hf, existsSyncB, readFileSyncM, h1]
    | place e =>
      left
      simp [stepCorr, h1, h2, h3, h4]
  · cases ev with
    | timer =>
      right
      simp [stepCorr, h3, h1, h2, h4]
    | poll =>
      right
      simp [stepCorr, h4, h1, h2, h3]
    | place e =>
      right
      simp [stepCorr, h1, h2, h3, h4]

theorem corrInv_run (evs : List Ev) :
    ∀ s : CorrState, corrInv s → corrInv (runCorr s evs) := by
  induction evs with
  | nil => intro s h; simpa [runCorr] using h
  | cons ev evs ih =>
    intro s h
    have h2 := corrInv_step s ev h
    simpa [runCorr] using ih (stepCorr s ev) h2

/-- C5: per correlation id, whatever sequence of timer fires, poll
ticks and external file placements occurs after registration, the
caller's promise is settled at most once, and once a settlement has
happened the registry entry is gone and both the timeout and the poll
handles are cancelled (so any later timer fire or poll tick is a
no-op). The first settling transition always clears the other handle,
which is what makes a second settlement unreachable. -/
theorem c5_single_settlement (e : Option FsEntry) (evs : List Ev) :
    corrInv (runCorr (initCorr e) evs) ∧
    (runCorr (initCorr e) evs).settled.length ≤ 1 := by
  have h := corrInv_run evs (initCorr e) (Or.inl ⟨rfl, rfl, rfl, rfl⟩)
  refine ⟨h, ?_⟩
  rcases h with ⟨h1, _⟩ | ⟨h1, _⟩
  · simp [h1]
  · omega

/-- C1: the claim is right and the code is wrong. The poll handler of
`waitForCallback` reads the artifact path with `fs.readFileSync`, which
follows symbolic links, and never applies the `lstat` symlink check
that `SecureTempFileManager.readSecure` documents and implements — the
secure read path is not used for callback artifacts. A symbolic link
placed at the expected artifact path whose target parses as
`{isError: false, data: {...}}` therefore settles the pending request
with the link target's payload instead of being refused and timing
out. The second conjunct shows the repository's own secure read
(claim's cited `readSecure`) would have refused the same node. -/
theorem c1_symlink_read_resolves :
    (runCorr
      (initCorr (some (FsEntry.symlinkTo (some (some ⟨false, [("x", "y")]⟩)))))
      [Ev.poll]).settled = [Outcome.resolved [("x", "y")]] ∧
    readSecure (tempDirOf "/Users/u")
      (tempDirOf "/Users/u" ++ "/callback-c1.json")
      (some (FsEntry.symlinkTo (some (some ⟨false, [("x", "y")]⟩)))) =
      .error "File is a symlink - potential security issue" :=
  ⟨rfl, rfl⟩

/-- C2 counterexample: for the callback action `get-version`, when the
OS-level `open` dispatch fails after `waitForCallback` has registered
the pending request, `executeUlyssesCommand` surfaces the invocation
failure but performs no cleanup: the registered correlation state still
has its registry entry present and both its timeout timer and poll
interval live — contradicting the claim that the entry is removed and
the handles cancelled synchronously. -/
theorem c2_dispatch_failure_no_cleanup_cex :
    (executeSync "get-version" [] 5 "r" [] false).outcome =
      .error (.internalError
        "MCP error -32603: dispatch of the open call failed") ∧
    (executeSync "get-version" [] 5 "r" [] false).registered =
      some (initCorr none) ∧
    (initCorr none).pending = true ∧
    (initCorr none).timerActive = true ∧
    (initCorr none).pollActive = true :=
  ⟨rfl, rfl, rfl, rfl, rfl⟩

/-- C2 amended: when dispatch fails after registration, no synchronous
cleanup happens — the registry entry stays present and the timeout and
poll handles stay live; the pending request is cleaned up only later
and exactly once, when the timeout fires: that single transition
removes the entry, cancels the poll and settles the promise with the
callback-timeout rejection. -/
theorem c2_dispatch_failure_deferred_cleanup (action : String)
    (params : List (String × String)) (now : Nat) (rand : String)
    (m : RLMap)
    (hcb : action ∈ CALLBACK_ACTIONS)
    (hal : action ∈ ALLOWED_ACTIONS)
    (hnd : action ∉ DESTRUCTIVE_ACTIONS) :
    (∃ msg, (executeSync action params now rand m false).outcome =
      .error (.internalError msg)) ∧
    (executeSync action params now rand m false).registered =
      some (initCorr none) ∧
    (initCorr none).pending = true ∧
    (initCorr none).timerActive = true ∧
    (initCorr none).pollActive = true ∧
    runCorr (initCorr none) [Ev.timer] =
      { pending := false, timerActive := false, pollActive := false,
        file := none, settled := [Outcome.rejectedTimeout] } := by
    refine ⟨⟨"MCP error -32603: dispatch of the open call failed", ?_⟩,
      ?_, rfl, rfl, rfl, rfl⟩ <;>
    simp [executeSync, checkRateLimit, hal, hnd, hcb]

theorem c2_dispatch_failure_deferred_cleanup_witness :
    (∃ msg, (executeSync "read-sheet" [("id", "S1")] 9 "z" [] false).outcome =
      .error (.internalError msg)) ∧
    (executeSync "read-sheet" [("id", "S1")] 9 "z" [] false).registered =
      some (initCorr none) ∧
    (initCorr none).pending = true ∧
    (initCorr none).timerActive = true ∧
    (initCorr none).pollActive = true ∧
    runCorr (initCorr none) [Ev.timer] =
      { pending := false, timerActive := false, pollActive := false,
        file := none, settled := [Outcome.rejectedTimeout] } :=
  c2_dispatch_failure_deferred_cleanup "read-sheet" [("id", "S1")] 9 "z" []
    (by decide) (by decide) (by decide)

/-- C4 counterexample: with a regular file at the artifact path whose
text is unparseable JSON, the first poll tick rejects the caller with
the internal read error (as the claim says) but does not delete the
artifact — the file is still present afterwards, contradicting
"artifact deleted regardless". -/
theorem c4_corrupt_artifact_remains_cex :
    (runCorr (initCorr (some (FsEntry.regular none))) [Ev.poll]).settled =
      [Outcome.rejectedInternal] ∧
    (runCorr (initCorr (some (FsEntry.regular none))) [Ev.poll]).file =
      some (FsEntry.regular none) :=
  ⟨rfl, rfl⟩

/-- C4 amended: when the poll observes a matching artifact whose
contents are unparseable JSON, the caller's request is rejected with an
internal error, the registry entry is removed and both handles are
cancelled, but the artifact is NOT deleted: unlike the parse-success
path, the catch branch performs no unlink, so the file remains on disk
exactly as it was. -/
theorem c4_corrupt_artifact_reject_no_delete (s : CorrState)
    (hp : s.pollActive = true) (hf : s.file = some (FsEntry.regular none)) :
    stepCorr s Ev.poll =
      { s with timerActive := false, pollActive := false, pending := false,
               settled := s.settled ++ [Outcome.rejectedInternal] } := by
  simp [stepCorr, hp, pollTick, hf, existsSyncB, readFileSyncM]

theorem c4_corrupt_artifact_reject_no_delete_witness :
    stepCorr (initCorr (some (FsEntry.regular none))) Ev.poll =
      { initCorr (some (FsEntry.regular none)) with
        timerActive := false, pollActive := false, pending := false,
        settled :=
          (initCorr (some (FsEntry.regular none))).settled ++
            [Outcome.rejectedInternal] } :=
  c4_corrupt_artifact_reject_no_delete
    (initCorr (some (FsEntry.regular none))) rfl rfl

/-- C9: round-trip. For any callback-needing whitelisted
(non-destructive, so the limiter passes) action, after a successful
dispatch the helper writing a well-formed artifact `{isError: false,
data: d}` at the matching path followed by the next poll tick settles
the pending request by resolving with exactly `d` (which
`executeUlyssesCommand` then returns, stringified), and the artifact
file no longer exists afterwards. -/
theorem c9_round_trip (action : String) (params : List (String × String))
    (now : Nat) (rand : String) (m : RLMap) (d : List (String × String))
    (hcb : action ∈ CALLBACK_ACTIONS)
    (hal : action ∈ ALLOWED_ACTIONS)
    (hnd : action ∉ DESTRUCTIVE_ACTIONS) :
    roundTrip action params now rand m d =
      some ([Outcome.resolved d], none) := by
  simp [roundTrip, executeSync, checkRateLimit, hal, hnd, hcb, runCorr,
    stepCorr, initCorr, pollTick, existsSyncB, readFileSyncM]

theorem c9_round_trip_witness :
    roundTrip "get-version" [] 7 "r" [] [("apiVersion", "3")] =
      some ([Outcome.resolved [("apiVersion", "3")]], none) :=
  c9_round_trip "get-version" [] 7 "r" [] [("apiVersion", "3")]
    (by decide) (by decide) (by decide)

/-- C3 counterexample: the store's guard is the textual test
`filePath.startsWith(tempDir)`, so a path that begins with the root's
text but escapes it is accepted and the operation proceeds against the
escaping target. Two escapes: `..` segments (resolving to
`/etc/passwd`) and a prefix-sharing sibling directory (`...tmpevil/x`).
Both pass `writeSecure`'s guard — the write targets a path that is not
a descendant of the store root, contradicting "fails closed without
touching the filesystem target". -/
theorem c3_textual_guard_escape_cex :
    writeSecure (tempDirOf "/Users/u")
      (tempDirOf "/Users/u" ++ "/../../../../../../etc/passwd") "x" =
      .ok (tempDirOf "/Users/u" ++ "/../../../../../../etc/passwd", "x") ∧
    isDescendantOf (tempDirOf "/Users/u" ++ "/../../../../../../etc/passwd")
      (tempDirOf "/Users/u") = false ∧
    writeSecure (tempDirOf "/Users/u") (tempDirOf "/Users/u" ++ "evil/x") "y" =
      .ok (tempDirOf "/Users/u" ++ "evil/x", "y") ∧
    isDescendantOf (tempDirOf "/Users/u" ++ "evil/x")
      (tempDirOf "/Users/u") = false :=
  ⟨rfl, by decide, rfl, by decide⟩

/-- C3 amended: each of the three store operations fails closed exactly
when the path does not *textually* start with the store root string;
the guard is a plain prefix test, not resolution-based containment, so
paths that begin with the root's text but resolve outside it (via `..`
segments or a prefix-sharing sibling directory name) are accepted and
operated on. -/
theorem c3_textual_guard_characterisation (tempDir p data : String)
    (e : Option FsEntry) :
    (writeSecure tempDir p data = .ok (p, data) ↔
      jsStartsWith p tempDir = true) ∧
    (readSecure tempDir p e =
        .error "Invalid file path: must be within secure temp directory" ↔
      jsStartsWith p tempDir = false) ∧
    (deleteSecure tempDir p e =
        .error "Invalid file path: must be within secure temp directory" ↔
      jsStartsWith p tempDir = false) := by
  cases h : jsStartsWith p tempDir
  · simp [writeSecure, readSecure, deleteSecure, h]
  · refine ⟨by simp [writeSecure, h], ?_, ?_⟩
    · rcases e with _ | e
      · simp [readSecure, h, existsSyncB]
      · cases e with
        | regular c => simp [readSecure, h, existsSyncB]
        | symlinkTo t =>
          cases t <;> simp [readSecure, h, existsSyncB]
    · rcases e with _ | e
      · simp [deleteSecure, h, existsSyncB]
      · cases e with
        | regular c => simp [deleteSecure, h, existsSyncB]
        | symlinkTo t =>
          cases t <;> simp [deleteSecure, h, existsSyncB]

/-- C8: for an action outside the whitelist, `executeUlyssesCommand`
throws `McpError(InvalidParams, ...)` before anything else happens: the
whitelist check precedes the rate-limit check, registration and URL
construction, so no URL is built, the rate-limit map is returned
untouched, no correlation is registered and no dispatch occurs. -/
theorem c8_unknown_action_rejected_early (action : String)
    (params : List (String × String)) (now : Nat) (rand : String)
    (m : RLMap) (dispatchOk : Bool)
    (h : action ∉ ALLOWED_ACTIONS) :
    executeSync action params now rand m dispatchOk =
      { rl := m, url := none, registered := none,
        outcome := .error (.invalidParams ("Invalid action: " ++ action)) } := by
  simp [executeSync, h]

theorem c8_unknown_action_rejected_early_witness :
    executeSync "delete-everything" [("id", "x")] 4 "r"
      [("trash", (3, 50))] true =
      { rl := [("trash", (3, 50))], url := none, registered := none,
        outcome := .error (.invalidParams
          ("Invalid action: " ++ "delete-everything")) } :=
  c8_unknown_action_rejected_early "delete-everything" [("id", "x")] 4 "r"
    [("trash", (3, 50))] true (by decide)

/-- C10: `validateRequired` coerces any defined, non-null value with
`String(value)` and trims, so the number `0`, the boolean `false` and a
plain object pass validation as `"0"`, `"false"` and
`"[object Object]"`; a value is rejected exactly when it is
`undefined`, `null`, or its string form trims to the empty string. -/
theorem c10_validate_required_coercion (f : String) (v : JSValue) :
    validateRequired (.num 0) f = .ok "0" ∧
    validateRequired (.boolean false) f = .ok "false" ∧
    validateRequired .obj f = .ok "[object Object]" ∧
    (isErr (validateRequired v f) = true ↔
      v = .undef ∨ v = .nullv ∨ jsTrim (jsString v) = "") := by
  refine ⟨rfl, rfl, rfl, ?_⟩
  cases v with
  | undef => simp [validateRequired, isErr]
  | nullv => simp [validateRequired, isErr]
  | str s =>
    simp only [validateRequired, jsString]
    split <;> simp_all [isErr]
  | num n =>
    simp only [validateRequired, jsString]
    split <;> simp_all [isErr]
  | boolean b =>
    cases b
    · have hne : jsTrim (jsString (JSValue.boolean false)) ≠ "" := by decide
      simp [validateRequired, isErr, hne]
    · have hne : jsTrim (jsString (JSValue.boolean true)) ≠ "" := by decide
      simp [validateRequired, isErr, hne]
  | obj =>
    simp only [validateRequired, jsString]
    split <;> simp_all [isErr]

end UlyssesMCP
